import Mathlib

/-!
Shallow embedding of the core of the `lens` Kubernetes-console repository:
the lazy iterator utilities (`src/common/utils/iter.ts`), the kubeconfig
sync manager, the `ApiManager` registry, the `KubeJsonApi` error formatter,
and spec-level models of the `KubeApi` client (version negotiation, watch
lifecycle, delete).  JavaScript iterables become Lean lists, mutable
observable maps become insertion-ordered association lists, and JS
truthiness is made explicit where the source relies on it.
-/

namespace Iter

/-- A JavaScript primitive value, carrying JavaScript truthiness.  Used to
instantiate the truthiness-parametric iterator combinators at a concrete
value domain. -/
inductive JSPrim where
  | jsBool (b : Bool)
  | jsNum (n : Int)
  | jsStr (s : String)
  | jsNull
  | jsUndefined
deriving DecidableEq, Repr

/-- JavaScript truthiness on primitive values: `false`, `0`, `""`, `null`
and `undefined` are falsy, everything else is truthy. -/
def JSPrim.truthy : JSPrim → Bool
  | .jsBool b => b
  | .jsNum n => n != 0
  | .jsStr s => s != ""
  | .jsNull => false
  | .jsUndefined => false

/-- `iter.map` of `src/common/utils/iter.ts`: yields `fn from` for each
`from` of the source, in order. -/
def map (src : List α) (fn : α → β) : List β :=
  match src with
  | [] => []
  | x :: xs => fn x :: map xs fn

/-- `iter.filter` of `src/common/utils/iter.ts`: yields the items for which
`fn` returns a truthy value.  The JS truthiness test on `fn`'s result is
folded into the Bool-valued predicate. -/
def filter (src : List α) (fn : α → Bool) : List α :=
  match src with
  | [] => []
  | x :: xs => if fn x then x :: filter xs fn else filter xs fn

/-- `iter.filterMap` of `src/common/utils/iter.ts`: computes `res := fn from`
for each item and yields `res` exactly when it is truthy.  The codomain's JS
truthiness test is passed explicitly as `truthy`. -/
def filterMap (src : List α) (truthy : β → Bool) (fn : α → β) : List β :=
  match src with
  | [] => []
  | x :: xs =>
    let res := fn x
    if truthy res then res :: filterMap xs truthy fn else filterMap xs truthy fn

/-- `iter.flatMap` of `src/common/utils/iter.ts`: yields every item that
`fn` produces for each source item, in order. -/
def flatMap (src : List α) (fn : α → List β) : List β :=
  match src with
  | [] => []
  | x :: xs => fn x ++ flatMap xs fn

/-- `iter.find` of `src/common/utils/iter.ts`: the first item for which the
predicate returns a truthy value, or `undefined` (here `none`). -/
def find (src : List α) (p : α → Bool) : Option α :=
  match src with
  | [] => none
  | x :: xs => if p x then some x else find xs p

end Iter

/-- A catalog entity as seen by the kubeconfig sync manager: `getId` is the
unique entity identifier (`CatalogEntity.getId()`); `payload` stands for the
rest of the entity's data and distinguishes entities that share an ID. -/
structure CatalogEntity where
  getId : String
  payload : Nat
deriving DecidableEq, Repr

namespace KubeconfigSyncManager

/-- The stateful `.filter` closure of `KubeconfigSyncManager.source`: the
mutable `seenIds : Set<string>` becomes an accumulator of ids.  An entity
whose id is already in the set is dropped (`false`); otherwise
`seenIds.add(...)` returns the (truthy) set, so the entity is kept and its id
recorded. -/
def filterSeen : List CatalogEntity → List String → List CatalogEntity
  | [], _ => []
  | e :: rest, seenIds =>
    if e.getId ∈ seenIds then filterSeen rest seenIds
    else e :: filterSeen rest (e.getId :: seenIds)

/-- `KubeconfigSyncManager.source` (src/unnamed/part_000, lines 30-46): the
derived merged view.  `sources` lists, in insertion order of the observable
map, each source's current entity list; the pipeline flat-maps them and
filters with a fresh per-recomputation seen-set. -/
def source (sources : List (List CatalogEntity)) : List CatalogEntity :=
  filterSeen (Iter.flatMap sources id) []

/-- Written from the claim's words, to be compared with `source`: the
concatenation of all sources' entity lists in source insertion order, with
every entity whose ID equals the ID of an earlier entity removed.  The first
argument accumulates the earlier entities of the concatenation. -/
def specKeepFirst : List CatalogEntity → List CatalogEntity → List CatalogEntity
  | _, [] => []
  | earlier, e :: rest =>
    if ∃ p ∈ earlier, p.getId = e.getId
    then specKeepFirst (earlier ++ [e]) rest
    else e :: specKeepFirst (earlier ++ [e]) rest

/-- A log line emitted by the sync manager through its injected logger
(src/unnamed/part_000, `startNewSync`/`stopOldSync`). -/
inductive SyncLogEvent where
  | debugAlreadySyncing (filePath : String)
  | infoStartingSync (filePath : String)
  | debugWatchedCount (n : Nat)
  | infoStoppingSync (filePath : String)
  | debugNoSyncToStop (filePath : String)
deriving DecidableEq, Repr

/-- The mutable state touched by `startNewSync`/`stopOldSync`: the observable
`sources` map (insertion-ordered association list from file path to the
watcher handle returned by `watchKubeconfigFileChanges`), plus two effect
logs: the paths for which a file watch was started, and the logger output. -/
structure SyncState where
  sources : List (String × Nat)
  watchesStarted : List String
  logs : List SyncLogEvent
deriving DecidableEq, Repr

/-- `KubeconfigSyncManager.startNewSync` (src/unnamed/part_000, lines 81-95):
if the path is already a key of `sources`, only a debug "already syncing"
line is logged; otherwise `watchKubeconfigFileChanges` (here the injected
`watchFn`) is called, its handle is stored under the path, and an info line
plus a debug watched-count line are logged. -/
def startNewSync (watchFn : String → Nat) (st : SyncState) (filePath : String) :
    SyncState :=
  if st.sources.any (fun q => q.1 = filePath) then
    { st with logs := st.logs ++ [.debugAlreadySyncing filePath] }
  else
    let sources := st.sources ++ [(filePath, watchFn filePath)]
    { sources := sources
      watchesStarted := st.watchesStarted ++ [filePath]
      logs := st.logs ++ [.infoStartingSync filePath, .debugWatchedCount sources.length] }

end KubeconfigSyncManager

/-- A `KubeApi` client instance as the `ApiManager` registry sees it.
`clientId` models JavaScript object identity (the `===` comparisons of
`registerApi`/`unregisterApi`); `apiBase`, `kind` and `apiVersionWithGroup`
are the fields the registry reads. -/
structure KubeApiClient where
  clientId : Nat
  apiBase : String
  kind : String
  apiVersionWithGroup : String
deriving DecidableEq, Repr

/-- A `KubeObjectStore` as the registry sees it: its identity and the
identity of the client held in its `api` field. -/
structure KubeObjectStore where
  storeId : Nat
  apiId : Nat
deriving DecidableEq, Repr

namespace ApiManager

/-- Lookup in an insertion-ordered association list, as `Map.get`. -/
def mapGet (m : List (String × β)) (k : String) : Option β :=
  (m.find? (fun q => q.1 = k)).map Prod.snd

/-- Key-presence test, as `Map.has`. -/
def mapHas (m : List (String × β)) (k : String) : Bool :=
  m.any (fun q => q.1 = k)

/-- `Map.set`: updates the value in place when the key is present (iteration
order keeps the original position), appends otherwise. -/
def mapSet (m : List (String × β)) (k : String) (v : β) : List (String × β) :=
  if mapHas m k then m.map (fun q => if q.1 = k then (k, v) else q)
  else m ++ [(k, v)]

/-- The two observable maps of `ApiManager`
(src/src/common/k8s-api/endpoints/helm-charts.api/request-values.injectable.ts,
second document): api-base → client and api-base → store. -/
structure State where
  apis : List (String × KubeApiClient)
  stores : List (String × KubeObjectStore)
deriving DecidableEq, Repr

/-- `ApiManager.registerApi` (same file, lines 71-94): a client with a falsy
(empty) `apiBase` is ignored; if `apiBase` is not yet a key of `apis`, every
store whose `api` is this client (by identity) is re-keyed to `apiBase`, and
the client is inserted; otherwise nothing changes. -/
def registerApi (st : State) (api : KubeApiClient) : State :=
  if api.apiBase = "" then st
  else if mapHas st.apis api.apiBase then st
  else
    { apis := mapSet st.apis api.apiBase api
      stores := st.stores.foldl
        (fun acc q => if q.2.apiId = api.clientId then mapSet acc api.apiBase q.2 else acc)
        st.stores }

/-- The functions `lookupApiLink` composes with that live outside this
repository slice: `createKubeApiURL`/`parseKubeApi` of `kube-api-parse` and
the clients' `getUrl` (the `KubeApi` class is not under src/).
`createKubeApiURL` takes an optional api prefix, the apiVersion (with group),
the object name, an optional namespace and the plural resource name;
`parseApiBase` is `parseKubeApi(path).apiBase`; `getUrl` renders a client's
URL for an optional namespace and optional name. -/
structure LinkContext where
  createKubeApiURL : Option String → String → String → Option String → String → String
  parseApiBase : String → String
  getUrl : KubeApiClient → Option String → Option String → String

/-- `ApiManager.getApi` with a string argument: exact key lookup, then lookup
of the path reparsed to its canonical api-base. -/
def getApiByPath (ctx : LinkContext) (st : State) (path : String) :
    Option KubeApiClient :=
  (mapGet st.apis path).orElse (fun _ => mapGet st.apis (ctx.parseApiBase path))

/-- `ApiManager.getApi` with a predicate argument: `iter.find` over the
registered clients in insertion order. -/
def getApiByPred (st : State) (p : KubeApiClient → Bool) : Option KubeApiClient :=
  Iter.find (st.apis.map Prod.snd) p

/-- `kind.toLowerCase()`, written over the character list so that concrete
instances evaluate. -/
def strToLower (s : String) : String :=
  String.mk (s.data.map Char.toLower)

/-- `kind.endsWith("s")` for the one-character suffix, written over the
character list so that concrete instances evaluate. -/
def strEndsWithS (s : String) : Bool :=
  s.data.getLast? = some (Char.ofNat 115)

/-- An object reference as `lookupApiLink` destructures it. `none` models an
absent (`undefined`) field; the `namespace` field is called `ns`. -/
structure ObjectReference where
  kind : Option String
  apiVersion : Option String
  name : String
  ns : Option String
deriving DecidableEq, Repr

/-- `ApiManager.lookupApiLink` (same file, lines 149-186).  Stages, in order:
empty/absent kind returns `""`; (a) registered client by kind + apiVersion;
(b) the generated resource link under the `/apis` then `/api` prefixes, kept
when a client is registered at it; (c) registered client by kind alone;
(d) a URL synthesized with the default prefix from the naive pluralization of
`kind` (lowercased, `"es"` appended when `kind` ends in `"s"`, else `"s"`). -/
def lookupApiLink (ctx : LinkContext) (st : State) (ref : ObjectReference)
    (parentNs : Option String) : String :=
  let kind := ref.kind.getD ""
  let apiVersion := ref.apiVersion.getD "v1"
  let ns := match ref.ns with
    | some s => some s
    | none => parentNs
  if kind = "" then ""
  else
    match getApiByPred st (fun api => api.kind = kind && api.apiVersionWithGroup = apiVersion) with
    | some api => ctx.getUrl api ns (some ref.name)
    | none =>
      let resource :=
        if strEndsWithS kind then strToLower kind ++ "es" else strToLower kind ++ "s"
      let apisLink := ctx.createKubeApiURL (some "/apis") apiVersion ref.name ns resource
      let apiLink := ctx.createKubeApiURL (some "/api") apiVersion ref.name ns resource
      if (getApiByPath ctx st apisLink).isSome then apisLink
      else if (getApiByPath ctx st apiLink).isSome then apiLink
      else
        match getApiByPred st (fun api => api.kind = kind) with
        | some api => ctx.getUrl api ns (some ref.name)
        | none => ctx.createKubeApiURL none apiVersion ref.name ns resource

/-- A concrete link context for closed instances: `createKubeApiURL` renders
the usual Kubernetes path shape with `/apis` as the default prefix,
`parseKubeApi` is the identity on the api base, and a client's `getUrl`
appends namespace and name to its api base. -/
def sampleLinkContext : LinkContext where
  createKubeApiURL := fun apiPrefixOpt apiVersion name ns resource =>
    (apiPrefixOpt.getD "/apis") ++ "/" ++ apiVersion ++ "/"
      ++ (match ns with
          | some n => "namespaces/" ++ n ++ "/"
          | none => "")
      ++ resource ++ "/" ++ name
  parseApiBase := fun path => path
  getUrl := fun api ns name =>
    api.apiBase ++ "/" ++ ns.getD "" ++ "/" ++ name.getD ""

end ApiManager

namespace KubeJsonApi

/-- The error payload handed to `KubeJsonApi.parseError`
(src/unnamed/part_007, lines 47-61): either a plain string body or a
Kubernetes error envelope, of which `parseError` reads the `status`,
`reason` and `message` fields (`none` models an absent field). -/
inductive ErrorPayload where
  | strPayload (s : String)
  | objPayload (status : Option String) (reason : Option String) (message : Option String)
deriving DecidableEq, Repr

/-- JS truthiness of an optional string field: truthy exactly when the field
is present with a non-empty value. -/
def truthyField : Option String → Bool
  | some s => s != ""
  | none => false

/-- `KubeJsonApi.parseError` (src/unnamed/part_007, lines 47-61).  A plain
string body is returned verbatim as the single message.  Otherwise, when
`status && reason` is truthy the single message is `message ||
"{status}: {reason}"`.  In every other case the generic base-class formatter
`JsonApi.parseError` runs; that class is not under src/, so it is the
parameter `superParseError`. -/
def parseError (superParseError : ErrorPayload → List String)
    (error : ErrorPayload) : List String :=
  match error with
  | .strPayload s => [s]
  | .objPayload status reason message =>
    if truthyField status && truthyField reason then
      [if truthyField message then message.getD ""
       else status.getD "" ++ ": " ++ reason.getD ""]
    else superParseError error

/-- A concrete stand-in for the generic base-class formatter, used by the C5
witness. -/
def genericFormatter : ErrorPayload → List String :=
  fun _ => ["Unknown error occured"]

end KubeJsonApi

namespace KubeApi

/-- One api-base candidate of version negotiation, parsed into the prefix
(`/api` or `/apis`), the API group and the version. -/
structure ApiCandidate where
  apiPrefix : String
  group : String
  version : String
deriving DecidableEq, Repr

/-- The resource-list endpoint `{apiPrefix}/{group}/{version}` queried for a
candidate. -/
def candidateUrl (c : ApiCandidate) : String :=
  c.apiPrefix ++ "/" ++ c.group ++ "/" ++ c.version

/-- Modelled from the spec: `KubeApi` version negotiation (section 4.3 of the
spec; the `kube-api.ts` implementation is not under src/, only its tests).
"iterate candidate api-bases (primary, then fallbacks, in order).  For each,
`GET {apiPrefix}/{group}/{version}` ... and check whether the target
resource's plural name is present in the returned resource list", stopping at
the first candidate that contains it.  `server` maps a resource-list URL to
the resource names the transport returns for it; the result is the list of
GET request URLs issued, in order, and the matched candidate (or `none` when
every candidate misses). -/
def negotiateVersion (server : String → List String) (plural : String) :
    List ApiCandidate → List String × Option ApiCandidate
  | [] => ([], none)
  | c :: rest =>
    let url := candidateUrl c
    if (server url).contains plural then ([url], some c)
    else
      let next := negotiateVersion server plural rest
      (url :: next.1, next.2)

/-- A watch request as issued on the wire: the query string carries
`watch=1&resourceVersion={checkpoint}` and optionally
`&timeoutSeconds={timeout}`; the namespace selects the collection URL. -/
structure WatchRequest where
  ns : Option String
  timeout : Option Nat
  resourceVersion : String
deriving DecidableEq, Repr

/-- The state of one watch subscription: the namespace and timeout it was
created with, the latest resourceVersion checkpoint seen, whether the stop
handle (or the caller-supplied abortController) has fired, whether the
in-flight transport call has been aborted, and the requests issued so far
(the initial request is issued on creation). -/
structure WatchSubscription where
  ns : Option String
  timeout : Option Nat
  lastVersion : String
  stopped : Bool
  aborted : Bool
  requests : List WatchRequest
deriving DecidableEq, Repr

/-- An event observed by an active watch subscription. -/
inductive WatchEvent where
  | lineReceived (rv : String)
  | streamEnd
  | stopCalled
deriving DecidableEq, Repr

/-- Modelled from the spec: `KubeApi.watch()` (section 4.3; `kube-api.ts` is
not under src/, only its tests).  Creating a subscription issues the first
watch request with an empty resourceVersion checkpoint. -/
def initWatch (ns : Option String) (timeout : Option Nat) : WatchSubscription :=
  { ns := ns, timeout := timeout, lastVersion := "", stopped := false,
    aborted := false,
    requests := [{ ns := ns, timeout := timeout, resourceVersion := "" }] }

/-- Modelled from the spec: the watch lifecycle (section 4.3).  A received
event line updates the resourceVersion checkpoint; a clean stream end without
a prior stop immediately reissues the same watch request (same namespace and
timeout, current checkpoint); calling the stop handle (or firing the
abortController) aborts the in-flight stream, and afterwards no event leads
to any further request. -/
def watchStep (s : WatchSubscription) (e : WatchEvent) : WatchSubscription :=
  match e with
  | .lineReceived rv => if s.stopped then s else { s with lastVersion := rv }
  | .streamEnd =>
    if s.stopped then s
    else
      { s with requests := s.requests ++
          [{ ns := s.ns, timeout := s.timeout, resourceVersion := s.lastVersion }] }
  | .stopCalled => { s with stopped := true, aborted := true }

/-- Run a subscription over a sequence of events. -/
def watchRun (s : WatchSubscription) (events : List WatchEvent) : WatchSubscription :=
  events.foldl watchStep s

/-- The static descriptor of a resource kind as `delete` needs it: whether the
kind is namespaced, and the pieces of its api base. -/
structure ResourceDesc where
  namespaced : Bool
  apiPrefix : String
  apiVersionWithGroup : String
  plural : String
deriving DecidableEq, Repr

/-- The outcome of a `delete` call: either rejected before any HTTP request
is sent, or a delete request issued against a URL. -/
inductive DeleteOutcome where
  | rejected (msg : String)
  | requested (url : String)
deriving DecidableEq, Repr

/-- Modelled from the spec: `getUrl` (section 4.3).  Cluster-scoped resources
ignore the namespace in the path; namespace-scoped resources default to
`"default"` when the namespace is absent or empty. -/
def resourceUrl (api : ResourceDesc) (ns : Option String) (name : String) : String :=
  if api.namespaced then
    api.apiPrefix ++ "/" ++ api.apiVersionWithGroup ++ "/namespaces/"
      ++ (if ns.getD "" = "" then "default" else ns.getD "") ++ "/"
      ++ api.plural ++ "/" ++ name
  else
    api.apiPrefix ++ "/" ++ api.apiVersionWithGroup ++ "/" ++ api.plural ++ "/" ++ name

/-- Modelled from the spec: `KubeApi.delete` (sections 4.3 and 7;
`kube-api.ts` is not under src/, only its tests).  On a cluster-scoped kind a
non-empty namespace rejects the operation before any request is sent;
otherwise the delete request is issued against the resolved resource URL with
the `propagationPolicy=Background` query. -/
def deleteOp (api : ResourceDesc) (name : String) (ns : Option String) :
    DeleteOutcome :=
  if !api.namespaced && ns.getD "" != "" then
    .rejected ("Cluster-scoped resource cannot be deleted with a namespace: " ++ ns.getD "")
  else
    .requested (resourceUrl api ns name ++ "?propagationPolicy=Background")

end KubeApi

/-! ## Theorems -/

theorem KubeconfigSyncManager.filterSeen_eq_specKeepFirst
    (l : List CatalogEntity) (seenIds : List String) (earlier : List CatalogEntity)
    (hiff : ∀ a, a ∈ seenIds ↔ ∃ p ∈ earlier, p.getId = a) :
    KubeconfigSyncManager.filterSeen l seenIds = KubeconfigSyncManager.specKeepFirst earlier l := by
  induction l generalizing seenIds earlier with
  | nil => rfl
  | cons e rest ih =>
    simp only [KubeconfigSyncManager.filterSeen, KubeconfigSyncManager.specKeepFirst]
    by_cases h : e.getId ∈ seenIds
    · rw [if_pos h, if_pos ((hiff e.getId).mp h)]
      refine ih seenIds (earlier ++ [e]) (fun a => ?_)
      constructor
      · intro ha
        obtain ⟨p, hp, hpa⟩ := (hiff a).mp ha
        exact ⟨p, List.mem_append_left _ hp, hpa⟩
      · rintro ⟨p, hp, hpa⟩
        rcases List.mem_append.mp hp with hp | hp
        · exact (hiff a).mpr ⟨p, hp, hpa⟩
        · simp only [List.mem_singleton] at hp
          subst hp
          subst hpa
          exact h
    · rw [if_neg h, if_neg (fun hx => h ((hiff e.getId).mpr hx))]
      refine congrArg (e :: ·) (ih (e.getId :: seenIds) (earlier ++ [e]) (fun a => ?_))
      constructor
      · intro ha
        rcases List.mem_cons.mp ha with ha | ha
        · exact ⟨e, List.mem_append_right _ (List.mem_singleton.mpr rfl), ha.symm⟩
        · obtain ⟨p, hp, hpa⟩ := (hiff a).mp ha
          exact ⟨p, List.mem_append_left _ hp, hpa⟩
      · rintro ⟨p, hp, hpa⟩
        rcases List.mem_append.mp hp with hp | hp
        · exact List.mem_cons_of_mem _ ((hiff a).mpr ⟨p, hp, hpa⟩)
        · simp only [List.mem_singleton] at hp
          subst hp
          exact hpa ▸ List.mem_cons_self _ _

theorem KubeconfigSyncManager.iter_flatMap_id (sources : List (List CatalogEntity)) :
    Iter.flatMap sources id = sources.flatten := by
  induction sources with
  | nil => rfl
  | cons s rest ih => simp [Iter.flatMap, ih]

/-- C1: reading the derived `source` value of the kubeconfig sync manager
yields exactly the concatenation of all sources' entity lists in source
insertion order with every entity whose ID equals the ID of an earlier entity
removed: for each distinct ID the first occurrence (by source iteration
order, then position within the source) is kept, and every later entity with
that ID, from the same or a different source, is absent. -/
theorem kubeconfigSyncManager_source_dedupes
    (sources : List (List CatalogEntity)) :
    KubeconfigSyncManager.source sources
      = KubeconfigSyncManager.specKeepFirst [] sources.flatten := by
  unfold KubeconfigSyncManager.source
  rw [KubeconfigSyncManager.iter_flatMap_id]
  exact KubeconfigSyncManager.filterSeen_eq_specKeepFirst _ _ _ (by simp)

/-- C9: for every finite input sequence and mapping function, `filterMap src fn`
yields exactly the truthy values of `fn x` for `x` taken from `src` in order;
it is extensionally equal to `filter (map src fn) (fun v => v)` where the
filter predicate is JS truthiness, so every falsy mapped result is dropped and
order is preserved. -/
theorem iter_filterMap_eq_filter_map {α β : Type} (truthy : β → Bool)
    (src : List α) (fn : α → β) :
    Iter.filterMap src truthy fn = Iter.filter (Iter.map src fn) truthy := by
  induction src with
  | nil => rfl
  | cons x xs ih =>
    simp only [Iter.filterMap, Iter.map, Iter.filter]
    by_cases h : truthy (fn x)
    · rw [if_pos h, if_pos h, ih]
    · rw [if_neg h, if_neg h, ih]

theorem mem_keys_of_any_key {l : List (String × Nat)} {p : String}
    (h : l.any (fun q => q.1 = p) = true) : p ∈ l.map Prod.fst := by
  obtain ⟨q, hq, hqp⟩ := List.any_eq_true.mp h
  exact List.mem_map.mpr ⟨q, hq, of_decide_eq_true hqp⟩

theorem not_mem_keys_of_not_any_key {l : List (String × Nat)} {p : String}
    (h : l.any (fun q => q.1 = p) = false) : p ∉ l.map Prod.fst := by
  intro hmem
  obtain ⟨q, hq, hqp⟩ := List.mem_map.mp hmem
  have hany : l.any (fun q => q.1 = p) = true :=
    List.any_eq_true.mpr ⟨q, hq, decide_eq_true hqp⟩
  rw [h] at hany
  exact Bool.false_ne_true hany

/-- C7: calling `startNewSync p` twice in succession leaves the sources of
the second call identical to those after the first (exactly one source entry
for `p`), starts no second file watch, emits exactly one "already syncing"
debug log from the second call, and preserves the at-most-one-source-per-path
invariant of the sources map. -/
theorem kubeconfigSyncManager_startNewSync_idempotent
    (watchFn : String → Nat) (st : KubeconfigSyncManager.SyncState) (p : String)
    (hkeys : (st.sources.map Prod.fst).Nodup) :
    (KubeconfigSyncManager.startNewSync watchFn
        (KubeconfigSyncManager.startNewSync watchFn st p) p).sources
      = (KubeconfigSyncManager.startNewSync watchFn st p).sources
    ∧ (KubeconfigSyncManager.startNewSync watchFn
        (KubeconfigSyncManager.startNewSync watchFn st p) p).watchesStarted
      = (KubeconfigSyncManager.startNewSync watchFn st p).watchesStarted
    ∧ (KubeconfigSyncManager.startNewSync watchFn
        (KubeconfigSyncManager.startNewSync watchFn st p) p).logs
      = (KubeconfigSyncManager.startNewSync watchFn st p).logs
          ++ [KubeconfigSyncManager.SyncLogEvent.debugAlreadySyncing p]
    ∧ ((KubeconfigSyncManager.startNewSync watchFn
        (KubeconfigSyncManager.startNewSync watchFn st p) p).sources.map
          Prod.fst).count p = 1
    ∧ ((KubeconfigSyncManager.startNewSync watchFn
        (KubeconfigSyncManager.startNewSync watchFn st p) p).sources.map
          Prod.fst).Nodup := by
  by_cases h : st.sources.any (fun q => q.1 = p) = true
  · have hcount : (st.sources.map Prod.fst).count p = 1 :=
      List.count_eq_one_of_mem hkeys (mem_keys_of_any_key h)
    simp only [KubeconfigSyncManager.startNewSync, h, if_true]
    exact ⟨trivial, trivial, trivial, hcount, hkeys⟩
  · simp only [Bool.not_eq_true] at h
    have h0 : st.sources.any (fun q => q.1 = p) = false := h
    have hnot : p ∉ st.sources.map Prod.fst := not_mem_keys_of_not_any_key h0
    have h1 : (st.sources ++ [(p, watchFn p)]).any (fun q => q.1 = p) = true :=
      List.any_eq_true.mpr ⟨(p, watchFn p), List.mem_append_right _ (by simp), by simp⟩
    simp only [KubeconfigSyncManager.startNewSync, h0, Bool.false_eq_true, if_false, h1,
      if_true]
    refine ⟨trivial, trivial, trivial, ?_, ?_⟩
    · simp [List.count_append, List.count_eq_zero.mpr hnot]
    · simp [List.nodup_append, hkeys, List.disjoint_singleton, hnot]

/-- Closed instance of C7 at a concrete state and path. -/
theorem kubeconfigSyncManager_startNewSync_idempotent_witness :
    (KubeconfigSyncManager.startNewSync (fun _ => 7)
        (KubeconfigSyncManager.startNewSync (fun _ => 7)
          ⟨[("/home/u/.kube", 3)], ["/home/u/.kube"], []⟩ "/tmp/kubeconfig")
        "/tmp/kubeconfig").sources
      = [("/home/u/.kube", 3), ("/tmp/kubeconfig", 7)]
    ∧ (KubeconfigSyncManager.startNewSync (fun _ => 7)
        (KubeconfigSyncManager.startNewSync (fun _ => 7)
          ⟨[("/home/u/.kube", 3)], ["/home/u/.kube"], []⟩ "/tmp/kubeconfig")
        "/tmp/kubeconfig").logs
      = [KubeconfigSyncManager.SyncLogEvent.infoStartingSync "/tmp/kubeconfig",
         KubeconfigSyncManager.SyncLogEvent.debugWatchedCount 2,
         KubeconfigSyncManager.SyncLogEvent.debugAlreadySyncing "/tmp/kubeconfig"] := by
  have h := kubeconfigSyncManager_startNewSync_idempotent (fun _ => 7)
    ⟨[("/home/u/.kube", 3)], ["/home/u/.kube"], []⟩ "/tmp/kubeconfig" (by decide)
  refine ⟨?_, ?_⟩
  · rw [h.1]
    decide
  · rw [h.2.2.1]
    decide

/-- C5: `KubeJsonApi.parseError` returns a plain-string payload verbatim as
the single message; when both `status` and `reason` are present (carrying a
non-empty value, the code's truthiness test) the single message is `message`
when present (non-empty), else `"{status}: {reason}"`; when neither `status`
nor `reason` is present the generic base-class formatter's result is
returned. -/
theorem kubeJsonApi_parseError_spec
    (base : KubeJsonApi.ErrorPayload → List String)
    (s st rs m : String) (msg : Option String) :
    KubeJsonApi.parseError base (.strPayload s) = [s]
    ∧ (st ≠ "" → rs ≠ "" → m ≠ "" →
        KubeJsonApi.parseError base (.objPayload (some st) (some rs) (some m)) = [m])
    ∧ (st ≠ "" → rs ≠ "" →
        KubeJsonApi.parseError base (.objPayload (some st) (some rs) none)
          = [st ++ ": " ++ rs])
    ∧ KubeJsonApi.parseError base (.objPayload none none msg)
        = base (.objPayload none none msg) := by
  refine ⟨rfl, ?_, ?_, ?_⟩
  · intro hst hrs hm
    simp [KubeJsonApi.parseError, KubeJsonApi.truthyField, hst, hrs, hm]
  · intro hst hrs
    simp [KubeJsonApi.parseError, KubeJsonApi.truthyField, hst, hrs]
  · simp [KubeJsonApi.parseError, KubeJsonApi.truthyField]

/-- Closed instance of C5 on concrete payloads. -/
theorem kubeJsonApi_parseError_spec_witness :
    KubeJsonApi.parseError KubeJsonApi.genericFormatter
        (.strPayload "connection refused") = ["connection refused"]
    ∧ KubeJsonApi.parseError KubeJsonApi.genericFormatter
        (.objPayload (some "Failure") (some "NotFound") (some "pod not found"))
      = ["pod not found"]
    ∧ KubeJsonApi.parseError KubeJsonApi.genericFormatter
        (.objPayload (some "Failure") (some "NotFound") none)
      = ["Failure: NotFound"]
    ∧ KubeJsonApi.parseError KubeJsonApi.genericFormatter
        (.objPayload none none (some "ignored"))
      = ["Unknown error occured"] := by
  have h := kubeJsonApi_parseError_spec KubeJsonApi.genericFormatter
    "connection refused" "Failure" "NotFound" "pod not found" (some "ignored")
  exact ⟨h.1, h.2.1 (by decide) (by decide) (by decide),
    h.2.2.1 (by decide) (by decide), h.2.2.2.trans rfl⟩

/-- C2: version negotiation issues `GET {apiPrefix}/{group}/{version}` for
each candidate in declared order and stops at the first candidate whose
returned resource list contains the target resource's plural name: the
requests issued are exactly the candidate URLs up to and including the first
match (all of them when no candidate matches), and the negotiated candidate
is the first matching one; no later candidate is queried even if it would
also match. -/
theorem kubeApi_negotiateVersion_stops_at_first_match
    (server : String → List String) (plural : String)
    (candidates : List KubeApi.ApiCandidate) :
    (KubeApi.negotiateVersion server plural candidates).1
      = (candidates.map KubeApi.candidateUrl).take
          (candidates.findIdx
            (fun c => (server (KubeApi.candidateUrl c)).contains plural) + 1)
    ∧ (KubeApi.negotiateVersion server plural candidates).2
      = candidates.find?
          (fun c => (server (KubeApi.candidateUrl c)).contains plural) := by
  induction candidates with
  | nil => exact ⟨rfl, rfl⟩
  | cons c rest ih =>
    by_cases h : plural ∈ server (KubeApi.candidateUrl c)
    · simp [KubeApi.negotiateVersion, h, List.findIdx_cons, List.find?_cons]
    · simp [KubeApi.negotiateVersion, h, List.findIdx_cons, List.find?_cons,
        ih.1, ih.2]

theorem kubeApi_watchStep_keeps_params (s : KubeApi.WatchSubscription)
    (e : KubeApi.WatchEvent) :
    (KubeApi.watchStep s e).ns = s.ns ∧ (KubeApi.watchStep s e).timeout = s.timeout := by
  cases e with
  | lineReceived rv =>
    simp only [KubeApi.watchStep]
    split <;> simp
  | streamEnd =>
    simp only [KubeApi.watchStep]
    split <;> simp
  | stopCalled => simp [KubeApi.watchStep]

theorem kubeApi_watchRun_requests_params (ns : Option String) (t : Option Nat)
    (events : List KubeApi.WatchEvent) :
    ∀ s : KubeApi.WatchSubscription, s.ns = ns → s.timeout = t →
      (∀ r ∈ s.requests, r.ns = ns ∧ r.timeout = t) →
      (∀ r ∈ (KubeApi.watchRun s events).requests, r.ns = ns ∧ r.timeout = t) := by
  induction events with
  | nil => intro s _ _ hreq; exact hreq
  | cons e rest ih =>
    intro s hns ht hreq
    refine ih (KubeApi.watchStep s e)
      ((kubeApi_watchStep_keeps_params s e).1.trans hns)
      ((kubeApi_watchStep_keeps_params s e).2.trans ht) ?_
    intro r hr
    cases e with
    | lineReceived rv =>
      simp only [KubeApi.watchStep] at hr
      split at hr <;> exact hreq r hr
    | streamEnd =>
      simp only [KubeApi.watchStep] at hr
      split at hr
      · exact hreq r hr
      · simp only [List.mem_append, List.mem_singleton] at hr
        rcases hr with hr | hr
        · exact hreq r hr
        · subst hr
          exact ⟨hns, ht⟩
    | stopCalled => exact hreq r hr

theorem kubeApi_watchRun_after_stop (events : List KubeApi.WatchEvent) :
    ∀ s : KubeApi.WatchSubscription, s.stopped = true →
      (KubeApi.watchRun s events).requests = s.requests
      ∧ (KubeApi.watchRun s events).stopped = true := by
  induction events with
  | nil => intro s h; exact ⟨rfl, h⟩
  | cons e rest ih =>
    intro s h
    cases e with
    | lineReceived rv =>
      have hstep : KubeApi.watchStep s (.lineReceived rv) = s := by
        simp [KubeApi.watchStep, h]
      simpa [KubeApi.watchRun, hstep] using ih s h
    | streamEnd =>
      have hstep : KubeApi.watchStep s .streamEnd = s := by
        simp [KubeApi.watchStep, h]
      simpa [KubeApi.watchRun, hstep] using ih s h
    | stopCalled =>
      have := ih { s with stopped := true, aborted := true } rfl
      simpa [KubeApi.watchRun, KubeApi.watchStep] using this

/-- C3: for every watch subscription, a clean stream end without a prior stop
reissues a watch request identical up to the resourceVersion checkpoint (the
namespace and timeout of every request the subscription ever issues equal
those it was created with); calling the stop handle (or the caller-supplied
abortController firing) aborts the in-flight stream, and after the stop no
further reconnect request is ever issued, whatever events follow. -/
theorem kubeApi_watch_reconnect_and_stop
    (ns : Option String) (t : Option Nat)
    (events events2 : List KubeApi.WatchEvent) (s : KubeApi.WatchSubscription) :
    (s.stopped = false →
      (KubeApi.watchStep s .streamEnd).requests
        = s.requests
          ++ [{ ns := s.ns, timeout := s.timeout, resourceVersion := s.lastVersion }])
    ∧ (∀ r ∈ (KubeApi.watchRun (KubeApi.initWatch ns t) events).requests,
        r.ns = ns ∧ r.timeout = t)
    ∧ (KubeApi.watchStep s .stopCalled).aborted = true
    ∧ (KubeApi.watchStep s .stopCalled).stopped = true
    ∧ (KubeApi.watchRun
        (KubeApi.watchStep (KubeApi.watchRun (KubeApi.initWatch ns t) events)
          .stopCalled)
        events2).requests
      = (KubeApi.watchRun (KubeApi.initWatch ns t) events).requests := by
  refine ⟨?_, ?_, rfl, rfl, ?_⟩
  · intro h
    simp [KubeApi.watchStep, h]
  · refine kubeApi_watchRun_requests_params ns t events _ rfl rfl ?_
    intro r hr
    simp only [KubeApi.initWatch, List.mem_singleton] at hr
    subst hr
    exact ⟨rfl, rfl⟩
  · exact (kubeApi_watchRun_after_stop events2 _ rfl).1

/-- Closed instance of C3: a stream end reconnects; after stopping, further
events issue no request. -/
theorem kubeApi_watch_reconnect_and_stop_witness :
    (KubeApi.watchStep (KubeApi.initWatch (some "kube-system") (some 60))
        KubeApi.WatchEvent.streamEnd).requests
      = [{ ns := some "kube-system", timeout := some 60, resourceVersion := "" },
         { ns := some "kube-system", timeout := some 60, resourceVersion := "" }]
    ∧ (KubeApi.watchRun
        (KubeApi.watchStep
          (KubeApi.watchRun (KubeApi.initWatch (some "kube-system") (some 60))
            [KubeApi.WatchEvent.lineReceived "5", KubeApi.WatchEvent.streamEnd])
          KubeApi.WatchEvent.stopCalled)
        [KubeApi.WatchEvent.streamEnd, KubeApi.WatchEvent.lineReceived "6"]).requests
      = [{ ns := some "kube-system", timeout := some 60, resourceVersion := "" },
         { ns := some "kube-system", timeout := some 60, resourceVersion := "5" }] := by
  have h := kubeApi_watch_reconnect_and_stop (some "kube-system") (some 60)
    [KubeApi.WatchEvent.lineReceived "5", KubeApi.WatchEvent.streamEnd]
    [KubeApi.WatchEvent.streamEnd, KubeApi.WatchEvent.lineReceived "6"]
    (KubeApi.initWatch (some "kube-system") (some 60))
  exact ⟨(h.1 rfl).trans (by decide), (h.2.2.2.2).trans (by decide)⟩

/-- C4: on a cluster-scoped (non-namespaced) resource kind, `delete` with a
non-empty namespace rejects before any HTTP request is sent, while the same
call with the namespace omitted or equal to the empty string issues the
delete request against the un-namespaced resource URL. -/
theorem kubeApi_delete_clusterScoped
    (api : KubeApi.ResourceDesc) (name : String) (ns : Option String)
    (hcluster : api.namespaced = false) :
    (∀ s, ns = some s → s ≠ "" →
      KubeApi.deleteOp api name ns
        = .rejected
            ("Cluster-scoped resource cannot be deleted with a namespace: " ++ s))
    ∧ (ns = none ∨ ns = some "" →
      KubeApi.deleteOp api name ns
        = .requested (api.apiPrefix ++ "/" ++ api.apiVersionWithGroup ++ "/"
            ++ api.plural ++ "/" ++ name ++ "?propagationPolicy=Background")) := by
  constructor
  · intro s hs hs0
    subst hs
    simp [KubeApi.deleteOp, hcluster, hs0]
  · intro hns
    rcases hns with h | h <;> subst h <;>
      simp [KubeApi.deleteOp, KubeApi.resourceUrl, hcluster]

/-- Closed instance of C4 on the namespaces kind. -/
theorem kubeApi_delete_clusterScoped_witness :
    KubeApi.deleteOp ⟨false, "/api", "v1", "namespaces"⟩ "foo" (some "test")
      = KubeApi.DeleteOutcome.rejected
          "Cluster-scoped resource cannot be deleted with a namespace: test"
    ∧ KubeApi.deleteOp ⟨false, "/api", "v1", "namespaces"⟩ "foo" none
      = KubeApi.DeleteOutcome.requested
          "/api/v1/namespaces/foo?propagationPolicy=Background" := by
  have h1 := (kubeApi_delete_clusterScoped ⟨false, "/api", "v1", "namespaces"⟩
    "foo" (some "test") rfl).1 "test" rfl (by decide)
  have h2 := (kubeApi_delete_clusterScoped ⟨false, "/api", "v1", "namespaces"⟩
    "foo" none rfl).2 (Or.inl rfl)
  exact ⟨h1, h2⟩

theorem apiManager_find?_none_of_not_has {β : Type} {m : List (String × β)}
    {k : String} (h : ApiManager.mapHas m k = false) :
    m.find? (fun q => q.1 = k) = none := by
  refine List.find?_eq_none.mpr ?_
  intro q hq hpq
  have hc : ApiManager.mapHas m k = true := List.any_eq_true.mpr ⟨q, hq, hpq⟩
  rw [h] at hc
  exact Bool.false_ne_true hc

theorem apiManager_mapGet_append_self {β : Type} {m : List (String × β)}
    {k : String} (v : β) (h : ApiManager.mapHas m k = false) :
    ApiManager.mapGet (m ++ [(k, v)]) k = some v := by
  unfold ApiManager.mapGet
  rw [List.find?_append, apiManager_find?_none_of_not_has h]
  simp [List.find?_cons]

theorem apiManager_mapGet_append_ne {β : Type} {m : List (String × β)}
    {k k2 : String} (v : β) (hne : k2 ≠ k) :
    ApiManager.mapGet (m ++ [(k, v)]) k2 = ApiManager.mapGet m k2 := by
  unfold ApiManager.mapGet
  rw [List.find?_append]
  have hsingle : List.find? (fun q => q.1 = k2) [(k, v)] = none := by
    have hd : (decide (k = k2)) = false := decide_eq_false (fun h => hne h.symm)
    simp [List.find?_cons, hd]
  rw [hsingle]
  rw [Option.or_none]

theorem apiManager_registerApi_noop (st : ApiManager.State) (api : KubeApiClient)
    (h : ApiManager.mapHas st.apis api.apiBase = true) :
    ApiManager.registerApi st api = st := by
  unfold ApiManager.registerApi
  by_cases h0 : api.apiBase = ""
  · rw [if_pos h0]
  · rw [if_neg h0, if_pos h]

/-- C6 counterexample: with a client already registered under the shared
apiBase, `registerApi c1; registerApi c2` leaves the original client, not
`c1`, under that key — so the claim's "for every ApiManager state" fails. -/
theorem apiManager_registerApi_claim_counterexample :
    ApiManager.mapGet
      (ApiManager.registerApi
        (ApiManager.registerApi
          { apis := [("/api/v1/pods",
              { clientId := 0, apiBase := "/api/v1/pods", kind := "Pod",
                apiVersionWithGroup := "v1" })],
            stores := [] }
          { clientId := 1, apiBase := "/api/v1/pods", kind := "Pod",
            apiVersionWithGroup := "v1" })
        { clientId := 2, apiBase := "/api/v1/pods", kind := "Pod",
          apiVersionWithGroup := "v1" }).apis
      "/api/v1/pods"
      = some { clientId := 0, apiBase := "/api/v1/pods", kind := "Pod",
               apiVersionWithGroup := "v1" }
    ∧ ApiManager.mapGet
        (ApiManager.registerApi
          (ApiManager.registerApi
            { apis := [("/api/v1/pods",
                { clientId := 0, apiBase := "/api/v1/pods", kind := "Pod",
                  apiVersionWithGroup := "v1" })],
              stores := [] }
            { clientId := 1, apiBase := "/api/v1/pods", kind := "Pod",
              apiVersionWithGroup := "v1" })
          { clientId := 2, apiBase := "/api/v1/pods", kind := "Pod",
            apiVersionWithGroup := "v1" }).apis
        "/api/v1/pods"
      ≠ some { clientId := 1, apiBase := "/api/v1/pods", kind := "Pod",
               apiVersionWithGroup := "v1" } := by
  decide

/-- C6 (amended): for every ApiManager state whose api map does not yet hold
the clients' shared, non-empty `apiBase`, after `registerApi c1` followed by
`registerApi c2` the registry maps that apiBase to `c1` (the second
registration does not overwrite the first), and every other key of the api
map is unchanged. -/
theorem apiManager_registerApi_no_overwrite
    (st : ApiManager.State) (c1 c2 : KubeApiClient)
    (hbase : c2.apiBase = c1.apiBase) (hne : c1.apiBase ≠ "")
    (hfresh : ApiManager.mapHas st.apis c1.apiBase = false) :
    (ApiManager.registerApi (ApiManager.registerApi st c1) c2).apis
      = st.apis ++ [(c1.apiBase, c1)]
    ∧ ApiManager.mapGet
        (ApiManager.registerApi (ApiManager.registerApi st c1) c2).apis
        c1.apiBase
      = some c1
    ∧ ∀ k, k ≠ c1.apiBase →
        ApiManager.mapGet
          (ApiManager.registerApi (ApiManager.registerApi st c1) c2).apis k
        = ApiManager.mapGet st.apis k := by
  have h1 : (ApiManager.registerApi st c1).apis = st.apis ++ [(c1.apiBase, c1)] := by
    unfold ApiManager.registerApi
    rw [if_neg hne, if_neg (by simp [hfresh])]
    show ApiManager.mapSet st.apis c1.apiBase c1 = st.apis ++ [(c1.apiBase, c1)]
    unfold ApiManager.mapSet
    rw [if_neg (by simp [hfresh])]
  have hhas : ApiManager.mapHas (ApiManager.registerApi st c1).apis c2.apiBase
      = true := by
    rw [hbase, h1]
    exact List.any_eq_true.mpr
      ⟨(c1.apiBase, c1), List.mem_append_right _ (by simp), by simp⟩
  rw [apiManager_registerApi_noop _ c2 hhas, h1]
  exact ⟨rfl, apiManager_mapGet_append_self c1 hfresh,
    fun k hk => apiManager_mapGet_append_ne c1 hk⟩

/-- Closed instance of the amended C6. -/
theorem apiManager_registerApi_no_overwrite_witness :
    (ApiManager.registerApi
      (ApiManager.registerApi
        { apis := [("/apis/apps/v1/deployments",
            { clientId := 9, apiBase := "/apis/apps/v1/deployments",
              kind := "Deployment", apiVersionWithGroup := "apps/v1" })],
          stores := [] }
        { clientId := 1, apiBase := "/api/v1/pods", kind := "Pod",
          apiVersionWithGroup := "v1" })
      { clientId := 2, apiBase := "/api/v1/pods", kind := "Pod",
        apiVersionWithGroup := "v1" }).apis
    = [("/apis/apps/v1/deployments",
        { clientId := 9, apiBase := "/apis/apps/v1/deployments",
          kind := "Deployment", apiVersionWithGroup := "apps/v1" }),
       ("/api/v1/pods",
        { clientId := 1, apiBase := "/api/v1/pods", kind := "Pod",
          apiVersionWithGroup := "v1" })]
    ∧ ApiManager.mapGet
        (ApiManager.registerApi
          (ApiManager.registerApi
            { apis := [("/apis/apps/v1/deployments",
                { clientId := 9, apiBase := "/apis/apps/v1/deployments",
                  kind := "Deployment", apiVersionWithGroup := "apps/v1" })],
              stores := [] }
            { clientId := 1, apiBase := "/api/v1/pods", kind := "Pod",
              apiVersionWithGroup := "v1" })
          { clientId := 2, apiBase := "/api/v1/pods", kind := "Pod",
            apiVersionWithGroup := "v1" }).apis
        "/apis/apps/v1/deployments"
      = some { clientId := 9, apiBase := "/apis/apps/v1/deployments",
               kind := "Deployment", apiVersionWithGroup := "apps/v1" } := by
  have h := apiManager_registerApi_no_overwrite
    { apis := [("/apis/apps/v1/deployments",
        { clientId := 9, apiBase := "/apis/apps/v1/deployments",
          kind := "Deployment", apiVersionWithGroup := "apps/v1" })],
      stores := [] }
    { clientId := 1, apiBase := "/api/v1/pods", kind := "Pod",
      apiVersionWithGroup := "v1" }
    { clientId := 2, apiBase := "/api/v1/pods", kind := "Pod",
      apiVersionWithGroup := "v1" }
    rfl (by decide) (by decide)
  exact ⟨h.1, (h.2.2 "/apis/apps/v1/deployments" (by decide)).trans (by decide)⟩

/-- C8: when no registered client matches an object reference by
kind + apiVersion, nor by the generated resource link under the `/apis` and
`/api` prefixes, nor by kind alone, `lookupApiLink` still returns a URL: it
synthesizes one (with the default prefix) from the naive pluralization of
`kind` — the lowercased kind with `"es"` appended when `kind` ends in `"s"`,
else with `"s"` appended. -/
theorem apiManager_lookupApiLink_synthesizes
    (ctx : ApiManager.LinkContext) (st : ApiManager.State)
    (ref : ApiManager.ObjectReference) (parentNs : Option String) (k : String)
    (hk : ref.kind = some k) (hk0 : k ≠ "")
    (ha : ApiManager.getApiByPred st
        (fun api => api.kind = k && api.apiVersionWithGroup = ref.apiVersion.getD "v1")
      = none)
    (hb1 : ApiManager.getApiByPath ctx st
        (ctx.createKubeApiURL (some "/apis") (ref.apiVersion.getD "v1") ref.name
          (match ref.ns with | some s => some s | none => parentNs)
          (if ApiManager.strEndsWithS k then ApiManager.strToLower k ++ "es"
           else ApiManager.strToLower k ++ "s"))
      = none)
    (hb2 : ApiManager.getApiByPath ctx st
        (ctx.createKubeApiURL (some "/api") (ref.apiVersion.getD "v1") ref.name
          (match ref.ns with | some s => some s | none => parentNs)
          (if ApiManager.strEndsWithS k then ApiManager.strToLower k ++ "es"
           else ApiManager.strToLower k ++ "s"))
      = none)
    (hc : ApiManager.getApiByPred st (fun api => api.kind = k) = none) :
    ApiManager.lookupApiLink ctx st ref parentNs
      = ctx.createKubeApiURL none (ref.apiVersion.getD "v1") ref.name
          (match ref.ns with | some s => some s | none => parentNs)
          (if ApiManager.strEndsWithS k then ApiManager.strToLower k ++ "es"
           else ApiManager.strToLower k ++ "s") := by
  simp only [ApiManager.lookupApiLink, hk, Option.getD_some, if_neg hk0, ha, hb1,
    hb2, hc, Option.isSome_none, Bool.false_eq_true, if_false]

/-- Closed instance of C8 on an empty registry. -/
theorem apiManager_lookupApiLink_synthesizes_witness :
    ApiManager.lookupApiLink ApiManager.sampleLinkContext
      { apis := [], stores := [] }
      { kind := some "Pod", apiVersion := none, name := "foo", ns := none }
      none
      = "/apis/v1/pods/foo" := by
  have h := apiManager_lookupApiLink_synthesizes ApiManager.sampleLinkContext
    { apis := [], stores := [] }
    { kind := some "Pod", apiVersion := none, name := "foo", ns := none }
    none "Pod" rfl (by decide) rfl rfl rfl rfl
  exact h.trans (by decide)

/-- C10: for every object reference whose `kind` field is absent or the empty
string, `lookupApiLink` returns the empty string, whatever the registry, the
link context, the parent namespace and the rest of the reference are. -/
theorem apiManager_lookupApiLink_blank_kind
    (ctx : ApiManager.LinkContext) (st : ApiManager.State)
    (ref : ApiManager.ObjectReference) (parentNs : Option String)
    (hkind : ref.kind = none ∨ ref.kind = some "") :
    ApiManager.lookupApiLink ctx st ref parentNs = "" := by
  rcases hkind with h | h <;> simp [ApiManager.lookupApiLink, h]

/-- Closed instance of C10, with a client registered so the result shows the
registry is not consulted. -/
theorem apiManager_lookupApiLink_blank_kind_witness :
    ApiManager.lookupApiLink ApiManager.sampleLinkContext
      { apis := [("/api/v1/pods",
          { clientId := 0, apiBase := "/api/v1/pods", kind := "Pod",
            apiVersionWithGroup := "v1" })],
        stores := [] }
      { kind := none, apiVersion := some "v1", name := "foo",
        ns := some "default" }
      (some "kube-system")
      = "" :=
  apiManager_lookupApiLink_blank_kind _ _ _ _ (Or.inl rfl)
